import Mathlib

/-!
Shallow embedding of the appointment-scheduling core of the health-hub
backend (Node/Express + Mongoose).  Times are modelled as integers:
absolute instants in milliseconds since the epoch (as produced by
Date.getTime()), durations in minutes (as stored on the documents), and
times of day in minutes since midnight.  The source stores times of day
as zero-padded HH:MM strings and compares them with string comparison;
on the validated HH:MM format that comparison agrees with the numeric
order on minutes, so the embedding uses the minute values directly.
-/

namespace HealthHub

/-- Appointment status enum of src/src/models/Appointment.js. -/
inductive AppointmentStatus
  | pending
  | confirmed
  | inProgress
  | completed
  | cancelled
  | noShow
deriving DecidableEq, Repr

/-- Consultation type enum (in-person, video, chat). -/
inductive ConsultationType
  | inPerson
  | video
  | chat
deriving DecidableEq, Repr

/-- The Appointment document (src/src/models/Appointment.js schema), with the
fields the scheduling core reads or writes.  appointmentDate is the absolute
instant in milliseconds, duration is in minutes. -/
structure Appointment where
  id : Nat
  patientId : Nat
  doctorId : Nat
  appointmentDate : Int
  duration : Int
  consultationType : ConsultationType
  status : AppointmentStatus
  confirmedAt : Option Int
  confirmedBy : Option Nat
  cancelledAt : Option Int
  cancelledBy : Option Nat
  cancellationReason : Option String
  completedAt : Option Int
  consultationFee : Int
  callStartedAt : Option Int
  callEndedAt : Option Int
  callDuration : Int
deriving DecidableEq, Repr

/-- The status filter used by the conflict query:
status in [pending, confirmed, in-progress]. -/
def activeStatus (s : AppointmentStatus) : Bool :=
  s == .pending || s == .confirmed || s == .inProgress

/-- Terminal statuses (completed, cancelled, no-show). -/
def isTerminal (s : AppointmentStatus) : Bool :=
  s == .completed || s == .cancelled || s == .noShow

/-- Static hasConflict of Appointment.js (lines 226-268).  The Mongo query is
a disjunction of three clauses over each stored appointment (s2 its start,
e2 = s2 + duration*60000 its end), against the candidate [s1, e1):
first clause s2 <= s1 and e2 >= s1; second clause s2 < e1 and e2 > s1;
third clause s1 <= s2 and s2 < e1; scoped to the doctor, to active statuses,
and excluding excludeId when given.  Returns whether the filtered list is
nonempty. -/
def hasConflict (appointments : List Appointment) (doctorId : Nat)
    (appointmentDate : Int) (duration : Int) (excludeId : Option Nat) : Bool :=
  let startTime := appointmentDate
  let endTime := startTime + duration * 60000
  let conflicts := appointments.filter fun a =>
    a.doctorId == doctorId &&
    activeStatus a.status &&
    (match excludeId with
     | some ex => a.id != ex
     | none => true) &&
    ((decide (a.appointmentDate ≤ startTime) &&
      decide (a.appointmentDate + a.duration * 60000 ≥ startTime)) ||
     (decide (a.appointmentDate < endTime) &&
      decide (a.appointmentDate + a.duration * 60000 > startTime)) ||
     (decide (a.appointmentDate ≥ startTime) &&
      decide (a.appointmentDate < endTime)))
  decide (conflicts.length > 0)

/-- The conflict predicate exactly as the spec words it (this is the spec
side of the refinement comparison, not a translation of the code): standard
half-open overlap s1 < e2 and s2 < e1, over the same doctor / status /
exclusion scope as the query. -/
def specConflict (appointments : List Appointment) (doctorId : Nat)
    (appointmentDate : Int) (duration : Int) (excludeId : Option Nat) : Bool :=
  appointments.any fun a =>
    a.doctorId == doctorId &&
    activeStatus a.status &&
    (match excludeId with
     | some ex => a.id != ex
     | none => true) &&
    (decide (appointmentDate < a.appointmentDate + a.duration * 60000) &&
     decide (a.appointmentDate < appointmentDate + duration * 60000))

/-- A single stored appointment for doctor 1 occupying [0 ms, 1800000 ms),
i.e. a 30-minute pending appointment starting at instant 0. -/
def apptA : Appointment :=
  { id := 1, patientId := 1, doctorId := 1, appointmentDate := 0,
    duration := 30, consultationType := .video, status := .pending,
    confirmedAt := none, confirmedBy := none, cancelledAt := none,
    cancelledBy := none, cancellationReason := none, completedAt := none,
    consultationFee := 2000, callStartedAt := none, callEndedAt := none,
    callDuration := 0 }

/-- A single stored appointment for doctor 1 occupying
[1800000 ms, 3600000 ms): a 30-minute pending appointment starting 30
minutes after instant 0. -/
def apptB : Appointment :=
  { apptA with id := 2, appointmentDate := 1800000 }

/-- hasConflict against a single stored pending appointment of doctor 1
with start s2 and duration d2 (minutes), for a candidate starting at s1
with duration d1.  Used to compare the two orientations of one pair of
intervals. -/
def conflictWith (s2 d2 s1 d1 : Int) : Bool :=
  hasConflict [{ apptA with appointmentDate := s2, duration := d2 }] 1 s1 d1 none

/-- A start/end pair of times of day, in minutes since midnight (the source
stores them as validated HH:MM strings). -/
structure TimeRange where
  startTime : Nat
  endTime : Nat
deriving DecidableEq, Repr

/-- One entry of weeklySchedule in the Availability schema. -/
structure DaySchedule where
  day : String
  isAvailable : Bool
  timeSlots : List TimeRange
deriving DecidableEq, Repr

/-- One entry of blockedDates: date is the calendar day (the source
normalises with setHours(0,0,0,0) or compares day/month/year components;
here a day is an abstract integer identifier), blockedSlots are times of
day in minutes. -/
structure BlockedDate where
  date : Int
  allDay : Bool
  blockedSlots : List Nat
deriving DecidableEq, Repr

/-- One entry of customAvailableDates. -/
structure CustomDate where
  date : Int
  timeSlots : List TimeRange
deriving DecidableEq, Repr

/-- The Availability document (availability schema in the models). -/
structure Availability where
  doctorId : Nat
  weeklySchedule : List DaySchedule
  slotDuration : Nat
  maxAppointmentsPerDay : Nat
  bufferTime : Nat
  blockedDates : List BlockedDate
  customAvailableDates : List CustomDate
deriving DecidableEq, Repr

/-- An instant as the source decomposes it: ms is Date.getTime(), day the
calendar day (date component comparison), weekday the lowercase weekday
name from toLocaleDateString, minutesOfDay the HH:MM time of day as
minutes. -/
structure Instant where
  ms : Int
  day : Int
  weekday : String
  minutesOfDay : Nat
deriving DecidableEq, Repr

/-- Membership of a time of day in a range: the source compares the HH:MM
strings with timeString >= slot.startTime and timeString < slot.endTime. -/
def inTimeRange (t : Nat) (r : TimeRange) : Bool :=
  r.startTime ≤ t && t < r.endTime

/-- The declared-schedule part of isAvailableAt, after the blocked check:
a custom available date for the same day overrides the weekly schedule;
otherwise the weekly entry for the weekday must exist and be available. -/
def scheduleOpenAt (av : Availability) (t : Instant) : Bool :=
  match av.customAvailableDates.find? (fun custom => custom.date == t.day) with
  | some customDate => customDate.timeSlots.any (inTimeRange t.minutesOfDay)
  | none =>
    match av.weeklySchedule.find? (fun s => s.day == t.weekday) with
    | some daySchedule =>
      daySchedule.isAvailable && daySchedule.timeSlots.any (inTimeRange t.minutesOfDay)
    | none => false

/-- Method isAvailableAt of the availability schema: blocked first (an
allDay block, or a non-allDay block listing the exact HH:MM of the
instant), then custom dates, then the weekly schedule. -/
def isAvailableAt (av : Availability) (t : Instant) : Bool :=
  let isBlocked := av.blockedDates.any fun blocked =>
    blocked.date == t.day &&
    (blocked.allDay || blocked.blockedSlots.contains t.minutesOfDay)
  if isBlocked then false
  else scheduleOpenAt av t

/-- The per-slot blocked test inside getAvailableSlotsForDate: some
blockedDates entry for the target day, not allDay, listing the slot start. -/
def isSlotBlocked (av : Availability) (targetDate : Int) (slotTime : Nat) : Bool :=
  av.blockedDates.any fun blocked =>
    blocked.date == targetDate && !blocked.allDay &&
    blocked.blockedSlots.contains slotTime

/-- The while loop of getAvailableSlotsForDate over one time range: from
currentTime, emit whenever currentTime + slotDuration <= endTime, skip
blocked starts, and advance by slotDuration + bufferTime.  The loop is
written with explicit fuel; with fuel endTime + 1 the fuel never runs out
when slotDuration is positive (the source guarantees slotDuration >= 15
via schema validation; with slotDuration = 0 the source loop would not
terminate at all). -/
def slotWalk (dur buf : Nat) (blocked : Nat → Bool) :
    Nat → Nat → Nat → List Nat
  | 0, _, _ => []
  | fuel + 1, currentTime, endTime =>
    if currentTime + dur ≤ endTime then
      let rest := slotWalk dur buf blocked fuel (currentTime + dur + buf) endTime
      if blocked currentTime then rest else currentTime :: rest
    else []

/-- The effective time ranges getAvailableSlotsForDate walks for a date:
the custom date entry if one matches, else the weekly entry for the
weekday when present and available, else none. -/
def effectiveRanges (av : Availability) (targetDate : Int) (dayName : String) :
    List TimeRange :=
  match av.customAvailableDates.find? (fun custom => custom.date == targetDate) with
  | some customDate => customDate.timeSlots
  | none =>
    match av.weeklySchedule.find? (fun s => s.day == dayName) with
    | some daySchedule =>
      if daySchedule.isAvailable then daySchedule.timeSlots else []
    | none => []

/-- Method getAvailableSlotsForDate of the availability schema: empty if
the whole day is blocked, otherwise the concatenated walk over each
effective range, dropping individually blocked slot starts. -/
def getAvailableSlotsForDate (av : Availability) (targetDate : Int)
    (dayName : String) : List Nat :=
  let dayBlocked := av.blockedDates.any fun blocked =>
    blocked.date == targetDate && blocked.allDay
  if dayBlocked then []
  else
    (effectiveRanges av targetDate dayName).flatMap fun range =>
      slotWalk av.slotDuration av.bufferTime (isSlotBlocked av targetDate)
        (range.endTime + 1) range.startTime range.endTime

/-- The pre-save validation hook of the availability schema: every time
range of the weekly schedule and of the custom dates must have
startTime < endTime (the hook throws otherwise).  Nothing else about the
ranges is validated. -/
def validateAvailability (av : Availability) : Bool :=
  av.weeklySchedule.all (fun schedule =>
    schedule.timeSlots.all fun slot => slot.startTime < slot.endTime) &&
  av.customAvailableDates.all (fun customDate =>
    customDate.timeSlots.all fun slot => slot.startTime < slot.endTime)

/-- A weekly pattern of Monday 09:00-12:00 with 30-minute slots and no
buffer (the scenario template). -/
def monAvailability : Availability :=
  { doctorId := 1,
    weeklySchedule := [{ day := "monday", isAvailable := true,
                         timeSlots := [{ startTime := 540, endTime := 720 }] }],
    slotDuration := 30,
    maxAppointmentsPerDay := 20,
    bufferTime := 0,
    blockedDates := [],
    customAvailableDates := [] }

/-- The scenario template with a non-allDay block for day 0 listing the
single slot 10:00 (minute 600). -/
def monAvailabilityBlocked : Availability :=
  { monAvailability with
    blockedDates := [{ date := 0, allDay := false, blockedSlots := [600] }] }

/-- A template whose Monday ranges are listed out of order
(10:00-11:00 before 09:00-10:00).  Each range has startTime < endTime, so
it passes the pre-save validation unchanged. -/
def unorderedAvailability : Availability :=
  { doctorId := 1,
    weeklySchedule := [{ day := "monday", isAvailable := true,
                         timeSlots := [{ startTime := 600, endTime := 660 },
                                       { startTime := 540, endTime := 600 }] }],
    slotDuration := 30,
    maxAppointmentsPerDay := 20,
    bufferTime := 0,
    blockedDates := [],
    customAvailableDates := [] }

/-- Method confirm of Appointment.js: unconditionally sets status
confirmed and stamps confirmedAt/confirmedBy (the pending guard lives in
the controller, not here). -/
def Appointment.confirm (a : Appointment) (now : Int) (userId : Nat) :
    Appointment :=
  { a with status := .confirmed, confirmedAt := some now,
           confirmedBy := some userId }

/-- Method cancel of Appointment.js: unconditionally sets status cancelled
and stamps cancelledAt/cancelledBy/cancellationReason. -/
def Appointment.cancel (a : Appointment) (now : Int) (userId : Nat)
    (reason : String) : Appointment :=
  { a with status := .cancelled, cancelledAt := some now,
           cancelledBy := some userId, cancellationReason := some reason }

/-- Method startConsultation of Appointment.js: unconditionally sets
status in-progress, stamping callStartedAt for video consultations. -/
def Appointment.startConsultation (a : Appointment) (now : Int) :
    Appointment :=
  let a' := { a with status := AppointmentStatus.inProgress }
  if a.consultationType == .video then { a' with callStartedAt := some now }
  else a'

/-- Method complete of Appointment.js: unconditionally sets status
completed and stamps completedAt; for a video consultation whose call was
started it stamps callEndedAt and the elapsed call duration in whole
seconds (Math.floor of the millisecond difference over 1000). -/
def Appointment.complete (a : Appointment) (now : Int) : Appointment :=
  let a' := { a with status := AppointmentStatus.completed,
                     completedAt := some now }
  if a.consultationType == .video then
    match a.callStartedAt with
    | some callStart =>
      { a' with callEndedAt := some now,
                callDuration := (now - callStart).fdiv 1000 }
    | none => a'
  else a'

/-- Method markNoShow of Appointment.js: unconditionally sets status
no-show. -/
def Appointment.markNoShow (a : Appointment) : Appointment :=
  { a with status := AppointmentStatus.noShow }

/-- Virtual hoursUntilAppointment: Math.floor of the millisecond
difference to the appointment divided by 3600000, so floor division on
integers. -/
def hoursUntilAppointment (a : Appointment) (now : Int) : Int :=
  (a.appointmentDate - now).fdiv 3600000

/-- Method canBeCancelled of Appointment.js: at least hoursBeforeLimit
whole hours until the appointment, and status pending or confirmed.  The
same limit applies to every caller. -/
def canBeCancelled (a : Appointment) (now : Int) (hoursBeforeLimit : Int) :
    Bool :=
  decide (hoursBeforeLimit ≤ hoursUntilAppointment a now) &&
  (a.status == .pending || a.status == .confirmed)

/-- The Doctor document, restricted to the fields the booking flow reads:
verificationStatus is the raw status string, consultationTypes the offered
kinds, the three fee fields mirror the consultationFee subdocument. -/
structure Doctor where
  id : Nat
  userId : Nat
  verificationStatus : String
  consultationTypes : List ConsultationType
  feeInPerson : Int
  feeVideo : Int
  feeChat : Int
  totalAppointments : Nat
deriving DecidableEq, Repr

/-- Fee selection in bookAppointment:
doctor.consultationFee[type === in-person ? inPerson : type]. -/
def consultationFeeFor (d : Doctor) : ConsultationType → Int
  | .inPerson => d.feeInPerson
  | .video => d.feeVideo
  | .chat => d.feeChat

/-- The Patient document, restricted to what the booking flow reads. -/
structure Patient where
  id : Nat
  userId : Nat
  totalAppointments : Nat
deriving DecidableEq, Repr

/-- The persistent state the controllers read and write. -/
structure Db where
  appointments : List Appointment
  doctors : List Doctor
  patients : List Patient
  availabilities : List Availability
deriving DecidableEq, Repr

/-- The distinct controller rejections, one per distinct error response of
the appointment controller. -/
inductive ApiError
  | missingFields
  | patientNotFound
  | doctorNotFound
  | appointmentNotFound
  | notAuthorized
  | doctorNotVerified
  | kindNotOffered
  | notInFuture
  | availabilityNotConfigured
  | notAvailable
  | slotConflict
  | invalidStatus
  | noticeWindow
deriving DecidableEq, Repr

/-- A booking request body together with the authenticated user id.  In
the typed model the presence check on the body fields reduces to the
reason-for-visit emptiness test (an empty string is falsy in the source
presence check). -/
structure BookRequest where
  doctorId : Nat
  appointmentDate : Instant
  consultationType : ConsultationType
  reasonForVisit : String
  userId : Nat
deriving DecidableEq, Repr

/-- The appointment document created by bookAppointment: status defaults
to pending, duration is the availability slotDuration, fee the selected
consultation fee. -/
def mkBookedAppointment (req : BookRequest) (newId patientRecId : Nat)
    (duration fee : Int) : Appointment :=
  { id := newId, patientId := patientRecId, doctorId := req.doctorId,
    appointmentDate := req.appointmentDate.ms, duration := duration,
    consultationType := req.consultationType, status := .pending,
    confirmedAt := none, confirmedBy := none, cancelledAt := none,
    cancelledBy := none, cancellationReason := none, completedAt := none,
    consultationFee := fee, callStartedAt := none, callEndedAt := none,
    callDuration := 0 }

/-- The write phase of bookAppointment: Appointment.create followed by
patient.incrementAppointmentCount and doctor.incrementAppointmentCount. -/
def bookInsert (db : Db) (req : BookRequest) (newId patientRecId : Nat)
    (duration fee : Int) : Db :=
  { db with
    appointments :=
      db.appointments ++ [mkBookedAppointment req newId patientRecId duration fee],
    patients := db.patients.map fun p =>
      if p.id == patientRecId then
        { p with totalAppointments := p.totalAppointments + 1 }
      else p,
    doctors := db.doctors.map fun d =>
      if d.id == req.doctorId then
        { d with totalAppointments := d.totalAppointments + 1 }
      else d }

/-- Controller bookAppointment, in the source order of its checks:
required fields, patient profile, doctor, doctor verified, consultation
type offered, fee selected, date strictly in the future, availability
configured, isAvailableAt, hasConflict (with the availability
slotDuration as candidate duration and no exclusion), then create and
increment the counters.  newId stands for the id the store assigns. -/
def bookAppointment (db : Db) (req : BookRequest) (now : Int) (newId : Nat) :
    Except ApiError Db :=
  if req.reasonForVisit == "" then .error .missingFields
  else
    match db.patients.find? (fun p => p.userId == req.userId) with
    | none => .error .patientNotFound
    | some patient =>
      match db.doctors.find? (fun d => d.id == req.doctorId) with
      | none => .error .doctorNotFound
      | some doctor =>
        if doctor.verificationStatus != "verified" then .error .doctorNotVerified
        else if !(doctor.consultationTypes.contains req.consultationType) then
          .error .kindNotOffered
        else
          let consultationFee := consultationFeeFor doctor req.consultationType
          if req.appointmentDate.ms ≤ now then .error .notInFuture
          else
            match db.availabilities.find? (fun av => av.doctorId == req.doctorId) with
            | none => .error .availabilityNotConfigured
            | some availability =>
              if !(isAvailableAt availability req.appointmentDate) then
                .error .notAvailable
              else if hasConflict db.appointments req.doctorId
                  req.appointmentDate.ms (availability.slotDuration : Int) none then
                .error .slotConflict
              else
                .ok (bookInsert db req newId patient.id
                  (availability.slotDuration : Int) consultationFee)

/-- Controller confirmAppointment: appointment found, the caller must be
the doctor of the appointment, the status must still be pending, then the
model-level confirm runs.  On success the stored appointment is replaced
by its confirmed version. -/
def confirmAppointment (db : Db) (userId : Nat) (apptId : Nat) (now : Int) :
    Except ApiError Db :=
  match db.appointments.find? (fun a => a.id == apptId) with
  | none => .error .appointmentNotFound
  | some appointment =>
    match db.doctors.find? (fun d => d.userId == userId) with
    | none => .error .notAuthorized
    | some doctor =>
      if appointment.doctorId != doctor.id then .error .notAuthorized
      else if appointment.status != .pending then .error .invalidStatus
      else
        .ok { db with appointments := db.appointments.map fun a =>
                if a.id == apptId then a.confirm now userId else a }

/-- Controller cancelAppointment: non-empty reason, appointment found,
the caller must be the patient or the doctor of the appointment (there is no
administrator clause here), canBeCancelled with the 24-hour limit for
every caller, then the model-level cancel runs. -/
def cancelAppointment (db : Db) (userId : Nat) (apptId : Nat)
    (reason : String) (now : Int) : Except ApiError Db :=
  if reason == "" then .error .missingFields
  else
    match db.appointments.find? (fun a => a.id == apptId) with
    | none => .error .appointmentNotFound
    | some appointment =>
      let patientAuth :=
        match db.patients.find? (fun p => p.userId == userId) with
        | some patient => appointment.patientId == patient.id
        | none => false
      let doctorAuth :=
        match db.doctors.find? (fun d => d.userId == userId) with
        | some doctor => appointment.doctorId == doctor.id
        | none => false
      if !(patientAuth || doctorAuth) then .error .notAuthorized
      else if !(canBeCancelled appointment now 24) then .error .noticeWindow
      else
        .ok { db with appointments := db.appointments.map fun a =>
                if a.id == apptId then a.cancel now userId reason else a }

/-- Detects a double booking: two appointments at different positions in
the store, for the same doctor, both with active status, whose half-open
intervals overlap in the standard sense. -/
def overlapsStd (a b : Appointment) : Bool :=
  decide (a.appointmentDate < b.appointmentDate + b.duration * 60000) &&
  decide (b.appointmentDate < a.appointmentDate + a.duration * 60000)

/-- True when some pair of distinct entries is a same-doctor overlapping
pair of active appointments. -/
def doubleBooked : List Appointment → Bool
  | [] => false
  | a :: rest =>
    rest.any (fun b =>
      a.doctorId == b.doctorId && activeStatus a.status &&
      activeStatus b.status && overlapsStd a b) ||
    doubleBooked rest

/-- A verified doctor (id 1, account user 5) offering only video
consultations. -/
def drVerified : Doctor :=
  { id := 1, userId := 5, verificationStatus := "verified",
    consultationTypes := [.video], feeInPerson := 0, feeVideo := 2000,
    feeChat := 1000, totalAppointments := 0 }

/-- A patient profile (id 100) belonging to account user 10. -/
def patientRec : Patient :=
  { id := 100, userId := 10, totalAppointments := 0 }

/-- A second patient profile (id 200) belonging to account user 20. -/
def patientRecB : Patient :=
  { id := 200, userId := 20, totalAppointments := 0 }

/-- A store with the verified doctor, one patient, the Monday template,
and no appointments. -/
def db2 : Db :=
  { appointments := [], doctors := [drVerified], patients := [patientRec],
    availabilities := [monAvailability] }

/-- A booking request whose instant is in the past (ms -1000 relative to
now 0) and whose consultation kind (chat) the doctor does not offer. -/
def req2 : BookRequest :=
  { doctorId := 1,
    appointmentDate := { ms := -1000, day := 0, weekday := "monday",
                         minutesOfDay := 600 },
    consultationType := .chat, reasonForVisit := "persistent headache",
    userId := 10 }

/-- A pending appointment of doctor 1 for patient 100, scheduled exactly
20 hours (72000000 ms) after instant 0. -/
def appt3 : Appointment :=
  { apptA with patientId := 100, appointmentDate := 72000000 }

/-- A store holding appt3 together with its patient and doctor; user 99
has neither a patient nor a doctor profile (an administrator account). -/
def db3 : Db :=
  { appointments := [appt3], doctors := [drVerified],
    patients := [patientRec], availabilities := [] }

/-- A cancelled (terminal) appointment. -/
def cancelledAppt : Appointment :=
  { apptA with patientId := 100, status := .cancelled }

/-- A store holding the cancelled appointment with its doctor and
patient. -/
def db4 : Db :=
  { appointments := [cancelledAppt], doctors := [drVerified],
    patients := [patientRec], availabilities := [] }

/-- A store with the verified doctor, two patients, the Monday template
and no appointments yet: the starting point of the concurrent booking
race. -/
def db9 : Db :=
  { appointments := [], doctors := [drVerified],
    patients := [patientRec, patientRecB],
    availabilities := [monAvailability] }

/-- First concurrent booking request: user 10 asks for the Monday 10:00
slot (ms 1000000, future of now 0). -/
def req9a : BookRequest :=
  { doctorId := 1,
    appointmentDate := { ms := 1000000, day := 0, weekday := "monday",
                         minutesOfDay := 600 },
    consultationType := .video, reasonForVisit := "persistent headache",
    userId := 10 }

/-- Second concurrent booking request: user 20 asks for the same Monday
10:00 slot. -/
def req9b : BookRequest :=
  { req9a with userId := 20 }

/-- Observes whether a controller call succeeded (HTTP 2xx) or was
rejected with an error response. -/
def succeeds : Except ApiError Db → Bool
  | .ok _ => true
  | .error _ => false

/-- A pending video appointment whose call was started at instant 100. -/
def apptVid : Appointment :=
  { apptA with callStartedAt := some 100 }

/-!
Helper lemmas, shared by the claim theorems below.
-/

theorem filter_length_pos_eq_any {α : Type} (p : α → Bool) (l : List α) :
    decide ((l.filter p).length > 0) = l.any p := by
  induction l with
  | nil => rfl
  | cons a t ih =>
    by_cases h : p a = true
    · simp [List.filter_cons, h]
    · simp only [Bool.not_eq_true] at h
      simp [List.filter_cons, h, ← ih]

theorem hasConflict_eq_any (appointments : List Appointment) (doctorId : Nat)
    (s1 d1 : Int) (excludeId : Option Nat) :
    hasConflict appointments doctorId s1 d1 excludeId =
      appointments.any (fun a =>
        a.doctorId == doctorId &&
        activeStatus a.status &&
        (match excludeId with
         | some ex => a.id != ex
         | none => true) &&
        ((decide (a.appointmentDate ≤ s1) &&
          decide (a.appointmentDate + a.duration * 60000 ≥ s1)) ||
         (decide (a.appointmentDate < s1 + d1 * 60000) &&
          decide (a.appointmentDate + a.duration * 60000 > s1)) ||
         (decide (a.appointmentDate ≥ s1) &&
          decide (a.appointmentDate < s1 + d1 * 60000)))) := by
  unfold hasConflict
  exact filter_length_pos_eq_any _ _

theorem mem_slotWalk {dur buf : Nat} {blocked : Nat → Bool} :
    ∀ {fuel cur endT t : Nat}, t ∈ slotWalk dur buf blocked fuel cur endT →
      (∃ k, t = cur + k * (dur + buf)) ∧ t + dur ≤ endT ∧ blocked t = false := by
  intro fuel
  induction fuel with
  | zero => intro cur endT t h; simp [slotWalk] at h
  | succ n ih =>
    intro cur endT t h
    rw [slotWalk] at h
    by_cases hle : cur + dur ≤ endT
    · rw [if_pos hle] at h
      by_cases hbl : blocked cur = true
      · rw [if_pos hbl] at h
        obtain ⟨⟨k, hk⟩, hub, hblk⟩ := ih h
        exact ⟨⟨k + 1, by rw [hk]; ring⟩, hub, hblk⟩
      · rw [if_neg hbl] at h
        rcases List.mem_cons.mp h with rfl | h'
        · refine ⟨⟨0, by ring⟩, hle, ?_⟩
          simpa using hbl
        · obtain ⟨⟨k, hk⟩, hub, hblk⟩ := ih h'
          exact ⟨⟨k + 1, by rw [hk]; ring⟩, hub, hblk⟩
    · rw [if_neg hle] at h
      simp at h

theorem slotWalk_mem {dur buf : Nat} {blocked : Nat → Bool} :
    ∀ (k : Nat) {fuel cur endT t : Nat}, k < fuel →
      t = cur + k * (dur + buf) → t + dur ≤ endT → blocked t = false →
      t ∈ slotWalk dur buf blocked fuel cur endT := by
  intro k
  induction k with
  | zero =>
    intro fuel cur endT t hk ht hub hbl
    cases fuel with
    | zero => omega
    | succ n =>
      have hcur : t = cur := by simpa using ht
      subst hcur
      rw [slotWalk, if_pos hub, if_neg (by simp [hbl])]
      exact List.mem_cons_self _ _
  | succ k ih =>
    intro fuel cur endT t hk ht hub hbl
    cases fuel with
    | zero => omega
    | succ n =>
      have hcle : cur ≤ t := by rw [ht]; exact Nat.le_add_right _ _
      have hcd : cur + dur ≤ endT := by omega
      have ht' : t = (cur + dur + buf) + k * (dur + buf) := by rw [ht]; ring
      have hmem := ih (show k < n by omega) ht' hub hbl
      rw [slotWalk, if_pos hcd]
      by_cases hbl2 : blocked cur = true
      · rw [if_pos hbl2]; exact hmem
      · rw [if_neg hbl2]; exact List.mem_cons_of_mem _ hmem

theorem slotWalk_full_iff {dur buf : Nat} (hdur : 0 < dur)
    (blocked : Nat → Bool) (cur endT t : Nat) :
    t ∈ slotWalk dur buf blocked (endT + 1) cur endT ↔
      (∃ k, t = cur + k * (dur + buf)) ∧ t + dur ≤ endT ∧ blocked t = false := by
  constructor
  · exact mem_slotWalk
  · rintro ⟨⟨k, hk⟩, hub, hbl⟩
    refine slotWalk_mem k ?_ hk hub hbl
    have h1 : k * 1 ≤ k * (dur + buf) := Nat.mul_le_mul_left k (by omega)
    rw [Nat.mul_one] at h1
    have h2 : k ≤ t := by omega
    omega

theorem slotWalk_chain {dur buf : Nat} {blocked : Nat → Bool} :
    ∀ {fuel cur endT : Nat},
      List.Chain' (fun a b => a + dur ≤ b)
        (slotWalk dur buf blocked fuel cur endT) := by
  intro fuel
  induction fuel with
  | zero => intro cur endT; simp [slotWalk]
  | succ n ih =>
    intro cur endT
    rw [slotWalk]
    by_cases hle : cur + dur ≤ endT
    · rw [if_pos hle]
      by_cases hbl : blocked cur = true
      · rw [if_pos hbl]; exact ih
      · rw [if_neg hbl]
        refine List.chain'_cons'.mpr ⟨?_, ih⟩
        intro y hy
        obtain ⟨⟨k, hk⟩, -, -⟩ := mem_slotWalk (List.mem_of_mem_head? hy)
        have : cur + dur + buf ≤ y := by rw [hk]; exact Nat.le_add_right _ _
        omega
    · rw [if_neg hle]; simp

theorem slots_chain (dur buf : Nat) (blocked : Nat → Bool)
    (ranges : List TimeRange)
    (hord : List.Pairwise (fun r s => r.endTime ≤ s.startTime) ranges) :
    List.Chain' (fun a b => a + dur ≤ b)
      (ranges.flatMap fun r =>
        slotWalk dur buf blocked (r.endTime + 1) r.startTime r.endTime) := by
  induction ranges with
  | nil => simp
  | cons r rest ih =>
    rw [List.flatMap_cons]
    rw [List.pairwise_cons] at hord
    refine List.Chain'.append slotWalk_chain (ih hord.2) ?_
    intro x hx y hy
    have hub : x + dur ≤ r.endTime :=
      (mem_slotWalk (List.mem_of_mem_getLast? hx)).2.1
    have hy' := List.mem_of_mem_head? hy
    rw [List.mem_flatMap] at hy'
    obtain ⟨r', hr', hyr⟩ := hy'
    obtain ⟨⟨k, hk⟩, -, -⟩ := mem_slotWalk hyr
    have hlb : r'.startTime ≤ y := by rw [hk]; exact Nat.le_add_right _ _
    have := hord.1 r' hr'
    omega

theorem getAvailableSlots_mem (av : Availability) (targetDate : Int)
    (dayName : String) (t : Nat) (hdur : 0 < av.slotDuration)
    (hnotblocked :
      av.blockedDates.any (fun b => b.date == targetDate && b.allDay) = false) :
    t ∈ getAvailableSlotsForDate av targetDate dayName ↔
      ∃ r ∈ effectiveRanges av targetDate dayName,
        (∃ k, t = r.startTime + k * (av.slotDuration + av.bufferTime)) ∧
        t + av.slotDuration ≤ r.endTime ∧
        isSlotBlocked av targetDate t = false := by
  unfold getAvailableSlotsForDate
  rw [if_neg (by simp [hnotblocked])]
  rw [List.mem_flatMap]
  constructor
  · rintro ⟨r, hr, hmem⟩
    exact ⟨r, hr, (slotWalk_full_iff hdur _ _ _ _).mp hmem⟩
  · rintro ⟨r, hr, hcond⟩
    exact ⟨r, hr, (slotWalk_full_iff hdur _ _ _ _).mpr hcond⟩

/-- C1 counterexample: the claim states that hasConflict is true exactly
when some in-scope appointment overlaps the candidate in the standard
half-open sense, and in particular that a candidate beginning exactly when
an existing appointment ends is not a conflict.  For the candidate
[1800000, 3600000) against the stored appointment [0, 1800000) of the same
doctor, hasConflict answers true while the half-open overlap predicate is
false, so the stated equivalence fails at this input. -/
theorem c1_counterexample :
    hasConflict [apptA] 1 1800000 30 none = true ∧
    specConflict [apptA] 1 1800000 30 none = false := by decide

/-- C1 (amended): for positive durations, hasConflict answers true exactly
when some appointment of the doctor with active status (and id different
from the exclusion, when given) either overlaps the candidate in the
standard half-open sense, or ends exactly at the candidate start.  A
candidate that ends exactly when an existing appointment begins is still
not a conflict; the touching case in the other direction is. -/
theorem c1_amended (appointments : List Appointment) (doctorId : Nat)
    (s1 d1 : Int) (excludeId : Option Nat)
    (hd1 : 0 < d1) (hall : ∀ a ∈ appointments, 0 < a.duration) :
    (hasConflict appointments doctorId s1 d1 excludeId = true ↔
      ∃ a ∈ appointments,
        a.doctorId = doctorId ∧ activeStatus a.status = true ∧
        (∀ ex, excludeId = some ex → a.id ≠ ex) ∧
        ((s1 < a.appointmentDate + a.duration * 60000 ∧
          a.appointmentDate < s1 + d1 * 60000) ∨
         a.appointmentDate + a.duration * 60000 = s1)) := by
  rw [hasConflict_eq_any, List.any_eq_true]
  refine exists_congr fun a => ?_
  refine and_congr_right fun ha => ?_
  have hda := hall a ha
  cases excludeId with
  | none =>
    simp only [Bool.and_eq_true, Bool.or_eq_true, beq_iff_eq, bne_iff_ne,
      decide_eq_true_eq, ge_iff_le, gt_iff_lt]
    constructor
    · rintro ⟨⟨⟨h1, h2⟩, -⟩, h4⟩
      refine ⟨h1, h2, by simp, ?_⟩
      omega
    · rintro ⟨h1, h2, -, h4⟩
      refine ⟨⟨⟨h1, h2⟩, trivial⟩, ?_⟩
      omega
  | some e =>
    simp only [Bool.and_eq_true, Bool.or_eq_true, beq_iff_eq, bne_iff_ne,
      decide_eq_true_eq, ge_iff_le, gt_iff_lt, Option.some.injEq]
    constructor
    · rintro ⟨⟨⟨h1, h2⟩, h3⟩, h4⟩
      refine ⟨h1, h2, by rintro ex rfl; exact h3, ?_⟩
      omega
    · rintro ⟨h1, h2, h3, h4⟩
      refine ⟨⟨⟨h1, h2⟩, h3 e rfl⟩, ?_⟩
      omega

/-- C1 witness: the amended equivalence instantiated at the candidate
[900000, 2700000) against the stored appointment [0, 1800000). -/
theorem c1_amended_witness :
    (0 : Int) < 30 ∧ (∀ a ∈ [apptA], (0 : Int) < a.duration) ∧
    (hasConflict [apptA] 1 900000 30 none = true ↔
      ∃ a ∈ [apptA],
        a.doctorId = 1 ∧ activeStatus a.status = true ∧
        (∀ ex, (none : Option Nat) = some ex → a.id ≠ ex) ∧
        ((900000 < a.appointmentDate + a.duration * 60000 ∧
          a.appointmentDate < 900000 + 30 * 60000) ∨
         a.appointmentDate + a.duration * 60000 = 900000)) :=
  ⟨by decide, by decide,
   c1_amended [apptA] 1 900000 30 none (by decide) (by decide)⟩

/-- C8 counterexample: the claim states that conflict detection is
symmetric in the two intervals.  For the touching pair [0, 1800000) and
[1800000, 3600000), hasConflict reports a conflict when the earlier
interval is the stored appointment and the later one the candidate, but
not in the swapped orientation. -/
theorem c8_counterexample :
    conflictWith 0 30 1800000 30 = true ∧
    conflictWith 1800000 30 0 30 = false := by decide

/-- C8 (amended): for positive durations, hasConflict treats the two
intervals symmetrically whenever neither interval ends exactly where the
other starts; the only asymmetric inputs are the touching pairs exhibited
by the counterexample. -/
theorem c8_amended (s1 d1 s2 d2 : Int) (h1 : 0 < d1) (h2 : 0 < d2)
    (hne1 : s1 + d1 * 60000 ≠ s2) (hne2 : s2 + d2 * 60000 ≠ s1) :
    conflictWith s2 d2 s1 d1 = conflictWith s1 d1 s2 d2 := by
  have key : ∀ (x y : Bool), (x = true ↔ y = true) → x = y := by decide
  unfold conflictWith
  rw [hasConflict_eq_any, hasConflict_eq_any]
  apply key
  simp only [List.any_cons, List.any_nil, Bool.or_false, Bool.and_eq_true,
    Bool.or_eq_true, decide_eq_true_eq, beq_iff_eq, ge_iff_le, gt_iff_lt,
    apptA, activeStatus]
  constructor
  · rintro ⟨hx, h⟩
    exact ⟨hx, by omega⟩
  · rintro ⟨hx, h⟩
    exact ⟨hx, by omega⟩

/-- C8 witness: symmetry of the amended statement at the disjoint pair
[0, 1800000) and [3600000, 5400000). -/
theorem c8_amended_witness :
    (0 : Int) < 30 ∧ (0 : Int) + 30 * 60000 ≠ 3600000 ∧
    (3600000 : Int) + 30 * 60000 ≠ 0 ∧
    conflictWith 3600000 30 0 30 = conflictWith 0 30 3600000 30 :=
  ⟨by decide, by decide, by decide,
   c8_amended 0 30 3600000 30 (by decide) (by decide) (by decide) (by decide)⟩

/-- C2 counterexample: the claim states that the requested instant being
strictly in the future is checked before the consultation kind, so that a
request that is both in the past and of an unoffered kind is rejected for
not being in the future.  In the controller the consultation-kind check
runs first: db2 holds a verified doctor offering only video, req2 asks for
a chat consultation at a past instant, and the rejection is the
kind-not-offered error, not the not-in-future error. -/
theorem c2_counterexample :
    req2.appointmentDate.ms ≤ 0 ∧
    drVerified.consultationTypes.contains req2.consultationType = false ∧
    bookAppointment db2 req2 0 50 = Except.error ApiError.kindNotOffered ∧
    ApiError.kindNotOffered ≠ ApiError.notInFuture :=
  ⟨by decide, by decide, rfl, by decide⟩

/-- C2 (amended): with the patient profile, a verified doctor and an
availability on record, the booking controller checks the consultation
kind first, then that the instant is strictly in the future, then
isAvailableAt, then hasConflict, the first failing check deciding the
rejection; when all pass the new appointment is created in pending state
appended to the store and the patient and doctor booking counters are
incremented. -/
theorem c2_amended (db : Db) (req : BookRequest) (now : Int) (newId : Nat)
    (patient : Patient) (doctor : Doctor) (availability : Availability)
    (hreason : (req.reasonForVisit == "") = false)
    (hp : db.patients.find? (fun p => p.userId == req.userId) = some patient)
    (hd : db.doctors.find? (fun d => d.id == req.doctorId) = some doctor)
    (hv : (doctor.verificationStatus != "verified") = false)
    (ha : db.availabilities.find? (fun av => av.doctorId == req.doctorId) =
      some availability) :
    (doctor.consultationTypes.contains req.consultationType = false →
      bookAppointment db req now newId = Except.error ApiError.kindNotOffered) ∧
    (doctor.consultationTypes.contains req.consultationType = true →
      req.appointmentDate.ms ≤ now →
      bookAppointment db req now newId = Except.error ApiError.notInFuture) ∧
    (doctor.consultationTypes.contains req.consultationType = true →
      now < req.appointmentDate.ms →
      isAvailableAt availability req.appointmentDate = false →
      bookAppointment db req now newId = Except.error ApiError.notAvailable) ∧
    (doctor.consultationTypes.contains req.consultationType = true →
      now < req.appointmentDate.ms →
      isAvailableAt availability req.appointmentDate = true →
      hasConflict db.appointments req.doctorId req.appointmentDate.ms
        (availability.slotDuration : Int) none = true →
      bookAppointment db req now newId = Except.error ApiError.slotConflict) ∧
    (doctor.consultationTypes.contains req.consultationType = true →
      now < req.appointmentDate.ms →
      isAvailableAt availability req.appointmentDate = true →
      hasConflict db.appointments req.doctorId req.appointmentDate.ms
        (availability.slotDuration : Int) none = false →
      bookAppointment db req now newId =
        Except.ok (bookInsert db req newId patient.id
          (availability.slotDuration : Int)
          (consultationFeeFor doctor req.consultationType)) ∧
      (bookInsert db req newId patient.id (availability.slotDuration : Int)
          (consultationFeeFor doctor req.consultationType)).appointments =
        db.appointments ++
          [mkBookedAppointment req newId patient.id
            (availability.slotDuration : Int)
            (consultationFeeFor doctor req.consultationType)] ∧
      (mkBookedAppointment req newId patient.id
          (availability.slotDuration : Int)
          (consultationFeeFor doctor req.consultationType)).status = .pending ∧
      (∀ p ∈ db.patients, p.id = patient.id →
        { p with totalAppointments := p.totalAppointments + 1 } ∈
          (bookInsert db req newId patient.id (availability.slotDuration : Int)
            (consultationFeeFor doctor req.consultationType)).patients) ∧
      (∀ d ∈ db.doctors, d.id = req.doctorId →
        { d with totalAppointments := d.totalAppointments + 1 } ∈
          (bookInsert db req newId patient.id (availability.slotDuration : Int)
            (consultationFeeFor doctor req.consultationType)).doctors)) := by
  refine ⟨?_, ?_, ?_, ?_, ?_⟩
  · intro hk
    have hk' : req.consultationType ∉ doctor.consultationTypes := by simpa using hk
    unfold bookAppointment
    simp [hreason, hp, hd, hv, hk']
  · intro hk hpast
    have hk' : req.consultationType ∈ doctor.consultationTypes := by simpa using hk
    unfold bookAppointment
    simp [hreason, hp, hd, hv, hk', hpast]
  · intro hk hfut hnav
    have hk' : req.consultationType ∈ doctor.consultationTypes := by simpa using hk
    have hnle : ¬ (req.appointmentDate.ms ≤ now) := by omega
    unfold bookAppointment
    simp [hreason, hp, hd, hv, hk', hnle, ha, hnav]
  · intro hk hfut hav hc
    have hk' : req.consultationType ∈ doctor.consultationTypes := by simpa using hk
    have hnle : ¬ (req.appointmentDate.ms ≤ now) := by omega
    unfold bookAppointment
    simp [hreason, hp, hd, hv, hk', hnle, ha, hav, hc]
  · intro hk hfut hav hc
    have hk' : req.consultationType ∈ doctor.consultationTypes := by simpa using hk
    have hnle : ¬ (req.appointmentDate.ms ≤ now) := by omega
    refine ⟨?_, rfl, rfl, ?_, ?_⟩
    · unfold bookAppointment
      simp [hreason, hp, hd, hv, hk', hnle, ha, hav, hc]
    · intro p hpmem hpid
      have hm := List.mem_map_of_mem
        (fun q => if q.id == patient.id then
          { q with totalAppointments := q.totalAppointments + 1 } else q) hpmem
      simp only [bookInsert]
      simpa [hpid] using hm
    · intro d hdmem hdid
      have hm := List.mem_map_of_mem
        (fun q => if q.id == req.doctorId then
          { q with totalAppointments := q.totalAppointments + 1 } else q) hdmem
      simp only [bookInsert]
      simpa [hdid] using hm

/-- C2 witness: the amended order instantiated at db2 and req2, where the
kind-not-offered branch fires. -/
theorem c2_amended_witness :
    bookAppointment db2 req2 0 50 = Except.error ApiError.kindNotOffered :=
  (c2_amended db2 req2 0 50 patientRec drVerified monAvailability
    (by decide) rfl rfl (by decide) rfl).1 (by decide)

/-- C3 counterexample: the claim states that a cancellation 20 hours
before the appointment is rejected for the patient but accepted for an
administrator.  In db3 the appointment is 20 hours away; the patient
(user 10) is indeed rejected by the notice window, but the administrator
(user 99, who has neither a patient nor a doctor profile) is rejected as
not authorized rather than accepted: the controller has no administrator
clause and applies the 24-hour window to every authorized caller. -/
theorem c3_counterexample :
    cancelAppointment db3 10 1 "cannot make it" 0 =
      Except.error ApiError.noticeWindow ∧
    cancelAppointment db3 99 1 "cannot make it" 0 =
      Except.error ApiError.notAuthorized := ⟨rfl, rfl⟩

/-- C3 (amended): a cancellation requested less than 24 whole hours before
the scheduled instant never succeeds, whoever the caller is: unauthorized
callers (including administrators) fail the authorization check and
authorized ones fail canBeCancelled. -/
theorem c3_amended (db : Db) (userId apptId : Nat) (reason : String) (now : Int)
    (a : Appointment)
    (hfind : db.appointments.find? (fun x => x.id == apptId) = some a)
    (hwin : hoursUntilAppointment a now < 24) :
    succeeds (cancelAppointment db userId apptId reason now) = false := by
  have hcbc : canBeCancelled a now 24 = false := by
    unfold canBeCancelled
    have h24 : ¬ (24 ≤ hoursUntilAppointment a now) := by omega
    simp [h24]
  unfold cancelAppointment
  simp only [hfind, hcbc, Bool.not_false, reduceIte]
  repeat' first
  | rfl
  | split

/-- C3 witness: the amended statement instantiated at db3 with the patient
as caller, 20 hours before the appointment. -/
theorem c3_amended_witness :
    db3.appointments.find? (fun x => x.id == 1) = some appt3 ∧
    hoursUntilAppointment appt3 0 < 24 ∧
    succeeds (cancelAppointment db3 10 1 "cannot make it" 0) = false :=
  ⟨rfl, by decide, c3_amended db3 10 1 "cannot make it" 0 appt3 rfl (by decide)⟩

/-- C4 counterexample: the claim states that every lifecycle operation on
a terminal appointment is rejected and leaves it unchanged.  The
model-level complete, startConsultation and markNoShow methods carry no
guard: on a cancelled appointment they overwrite the status. -/
theorem c4_counterexample :
    isTerminal cancelledAppt.status = true ∧
    (cancelledAppt.complete 1000).status = .completed ∧
    (cancelledAppt.startConsultation 1000).status = .inProgress ∧
    cancelledAppt.markNoShow.status = .noShow ∧
    AppointmentStatus.completed ≠ AppointmentStatus.cancelled := by decide

/-- C4 (amended): on a terminal appointment the controller-level confirm
and cancel operations never succeed (their guards reject every terminal
status), but the model-level startConsultation, complete and markNoShow,
which have no guard and no controller in the repository, overwrite the
status unconditionally, out of terminal states included. -/
theorem c4_amended (db : Db) (userId apptId : Nat) (now : Int) (reason : String)
    (a : Appointment)
    (hfind : db.appointments.find? (fun x => x.id == apptId) = some a)
    (hterm : isTerminal a.status = true) :
    succeeds (confirmAppointment db userId apptId now) = false ∧
    succeeds (cancelAppointment db userId apptId reason now) = false ∧
    (a.startConsultation now).status = .inProgress ∧
    (a.complete now).status = .completed ∧
    a.markNoShow.status = .noShow := by
  have hnp : (a.status != AppointmentStatus.pending) = true := by
    cases hs : a.status <;> simp_all [isTerminal]
  have hcbc : canBeCancelled a now 24 = false := by
    unfold canBeCancelled
    cases hs : a.status <;> simp_all [isTerminal]
  refine ⟨?_, ?_, ?_, ?_, ?_⟩
  · unfold confirmAppointment
    simp only [hfind, hnp, reduceIte]
    repeat' first
    | rfl
    | split
  · unfold cancelAppointment
    simp only [hfind, hcbc, Bool.not_false, reduceIte]
    repeat' first
    | rfl
    | split
  · unfold Appointment.startConsultation
    split <;> rfl
  · unfold Appointment.complete
    split
    · split <;> rfl
    · rfl
  · rfl

/-- C4 witness: the amended statement at db4 and its cancelled
appointment. -/
theorem c4_amended_witness :
    db4.appointments.find? (fun x => x.id == 1) = some cancelledAppt ∧
    isTerminal cancelledAppt.status = true ∧
    (succeeds (confirmAppointment db4 10 1 0) = false ∧
     succeeds (cancelAppointment db4 10 1 "late" 0) = false ∧
     (cancelledAppt.startConsultation 0).status = .inProgress ∧
     (cancelledAppt.complete 0).status = .completed ∧
     cancelledAppt.markNoShow.status = .noShow) :=
  ⟨rfl, by decide, c4_amended db4 10 1 0 "late" cancelledAppt rfl (by decide)⟩

/-- C5 counterexample: the claim states that calling complete on a pending
appointment is rejected and leaves the appointment unchanged.  The
model-level complete method has no guard and no controller invokes it with
one: on the pending appointment apptA it sets the status to completed and
stamps completedAt (the repository test script itself calls complete
directly on a pending appointment). -/
theorem c5_counterexample :
    apptA.status = .pending ∧
    (apptA.complete 500).status = .completed ∧
    (apptA.complete 500).completedAt = some 500 := by decide

/-- C5 (amended): complete succeeds from every state, pending included:
it sets the status to completed, stamps completedAt, and for a video
consultation whose call was started stamps callEndedAt and the elapsed
call duration in whole seconds. -/
theorem c5_amended (a : Appointment) (now : Int) :
    (a.complete now).status = .completed ∧
    (a.complete now).completedAt = some now ∧
    (∀ s, a.consultationType = .video → a.callStartedAt = some s →
      (a.complete now).callEndedAt = some now ∧
      (a.complete now).callDuration = (now - s).fdiv 1000) := by
  refine ⟨?_, ?_, ?_⟩
  · unfold Appointment.complete
    split
    · split <;> rfl
    · rfl
  · unfold Appointment.complete
    split
    · split <;> rfl
    · rfl
  · intro s hv hs
    simp [Appointment.complete, hv, hs]

/-- C5 witness: the amended statement at the started video appointment
apptVid, completed at instant 500. -/
theorem c5_amended_witness :
    (apptVid.complete 500).status = .completed ∧
    (apptVid.complete 500).completedAt = some 500 ∧
    ((apptVid.complete 500).callEndedAt = some 500 ∧
     (apptVid.complete 500).callDuration = ((500 : Int) - 100).fdiv 1000) :=
  ⟨(c5_amended apptVid 500).1, (c5_amended apptVid 500).2.1,
   (c5_amended apptVid 500).2.2 100 rfl rfl⟩

/-- C6: the slot generator walks each effective range in steps of
slotDuration + bufferTime from the range start, emits a slot exactly when
its start plus slotDuration fits inside the range, and drops a slot whose
start is blocked for that date; the Monday 09:00-12:00 template with
30-minute slots and no buffer yields the six slots 09:00 through 11:30,
and blocking 10:00 yields the same list without 10:00. -/
theorem c6 :
    (∀ (av : Availability) (targetDate : Int) (dayName : String) (t : Nat),
        0 < av.slotDuration →
        (av.blockedDates.any fun b => b.date == targetDate && b.allDay) = false →
        (t ∈ getAvailableSlotsForDate av targetDate dayName ↔
          ∃ r ∈ effectiveRanges av targetDate dayName,
            (∃ k, t = r.startTime + k * (av.slotDuration + av.bufferTime)) ∧
            t + av.slotDuration ≤ r.endTime ∧
            isSlotBlocked av targetDate t = false)) ∧
    getAvailableSlotsForDate monAvailability 0 "monday" =
      [540, 570, 600, 630, 660, 690] ∧
    getAvailableSlotsForDate monAvailabilityBlocked 0 "monday" =
      [540, 570, 630, 660, 690] :=
  ⟨fun av d n t hdur hnb => getAvailableSlots_mem av d n t hdur hnb,
   by decide, by decide⟩

/-- C6 witness: the membership characterization instantiated at the Monday
template and the slot 09:30. -/
theorem c6_witness :
    0 < monAvailability.slotDuration ∧
    (monAvailability.blockedDates.any fun b =>
      b.date == (0 : Int) && b.allDay) = false ∧
    (570 ∈ getAvailableSlotsForDate monAvailability 0 "monday" ↔
      ∃ r ∈ effectiveRanges monAvailability 0 "monday",
        (∃ k, 570 = r.startTime +
          k * (monAvailability.slotDuration + monAvailability.bufferTime)) ∧
        570 + monAvailability.slotDuration ≤ r.endTime ∧
        isSlotBlocked monAvailability 0 570 = false) :=
  ⟨by decide, by decide, c6.1 monAvailability 0 "monday" 570 (by decide) (by decide)⟩

/-- C7 counterexample: the claim states that for every schedule template
and date the generated slots are strictly increasing and pairwise
non-overlapping.  The pre-save validation only requires startTime less
than endTime within each range, so a template listing the Monday ranges
out of order is accepted, and its slot list 10:00, 10:30, 09:00, 09:30 is
not strictly increasing. -/
theorem c7_counterexample :
    validateAvailability unorderedAvailability = true ∧
    getAvailableSlotsForDate unorderedAvailability 0 "monday" =
      [600, 630, 540, 570] ∧
    ¬ List.Chain' (· < ·)
        (getAvailableSlotsForDate unorderedAvailability 0 "monday") := by
  refine ⟨by decide, by decide, ?_⟩
  have h : getAvailableSlotsForDate unorderedAvailability 0 "monday" =
      [600, 630, 540, 570] := by decide
  rw [h]
  simp [List.chain'_cons]

/-- C7 (amended): whenever the effective ranges of the date are listed in
order and disjoint (each range ending no later than the next one starts),
the generated slots are strictly increasing and pairwise separated by at
least slotDuration, hence non-overlapping. -/
theorem c7_amended (av : Availability) (targetDate : Int) (dayName : String)
    (hdur : 0 < av.slotDuration)
    (hord : List.Pairwise (fun r s => r.endTime ≤ s.startTime)
      (effectiveRanges av targetDate dayName)) :
    List.Chain' (· < ·) (getAvailableSlotsForDate av targetDate dayName) ∧
    List.Pairwise (fun a b => a + av.slotDuration ≤ b)
      (getAvailableSlotsForDate av targetDate dayName) := by
  have hchain : List.Chain' (fun a b => a + av.slotDuration ≤ b)
      (getAvailableSlotsForDate av targetDate dayName) := by
    unfold getAvailableSlotsForDate
    by_cases hb : (av.blockedDates.any fun blocked =>
        blocked.date == targetDate && blocked.allDay) = true
    · simp [hb]
    · simp only [Bool.not_eq_true] at hb
      rw [if_neg (by simp [hb])]
      exact slots_chain _ _ _ _ hord
  haveI : IsTrans Nat (fun a b => a + av.slotDuration ≤ b) :=
    ⟨fun a b c h1 h2 => by omega⟩
  refine ⟨hchain.imp ?_, List.chain'_iff_pairwise.mp hchain⟩
  intro a b h
  omega

/-- C7 witness: the amended statement at the Monday template. -/
theorem c7_amended_witness :
    0 < monAvailability.slotDuration ∧
    List.Pairwise (fun r s => r.endTime ≤ s.startTime)
      (effectiveRanges monAvailability 0 "monday") ∧
    (List.Chain' (· < ·) (getAvailableSlotsForDate monAvailability 0 "monday") ∧
     List.Pairwise (fun a b => a + monAvailability.slotDuration ≤ b)
       (getAvailableSlotsForDate monAvailability 0 "monday")) := by
  have hord : List.Pairwise (fun r s => r.endTime ≤ s.startTime)
      (effectiveRanges monAvailability 0 "monday") := by
    have h : effectiveRanges monAvailability 0 "monday" =
        [{ startTime := 540, endTime := 720 }] := by decide
    rw [h]
    exact List.pairwise_singleton _ _
  exact ⟨by decide, hord, c7_amended monAvailability 0 "monday" (by decide) hord⟩

/-- C9: the conflict check and the appointment creation are not atomic:
the controller runs a find followed by a separate create with no
transaction or lock, so two requests for the same slot that interleave
between check and create both pass hasConflict against the initial store
and both insert, leaving two overlapping pending appointments of the same
doctor.  From db9, both req9a and req9b succeed when checked against the
initial store, and applying both write phases produces a double
booking. -/
theorem c9_race :
    bookAppointment db9 req9a 0 51 =
      Except.ok (bookInsert db9 req9a 51 100 30 2000) ∧
    bookAppointment db9 req9b 0 52 =
      Except.ok (bookInsert db9 req9b 52 200 30 2000) ∧
    doubleBooked (bookInsert (bookInsert db9 req9a 51 100 30 2000)
        req9b 52 200 30 2000).appointments = true :=
  ⟨rfl, rfl, by decide⟩

/-- C10: isAvailableAt treats a non-allDay blocked entry as blocking only
the exact HH:MM it lists: whenever no same-day entry is allDay and none
lists the exact time of day of the instant, the answer is exactly the
declared-schedule check; in particular with only 10:00 blocked and
30-minute slots, 10:15 inside a weekly range is reported available while
10:00 itself is not. -/
theorem c10 :
    (∀ (av : Availability) (t : Instant),
        (∀ b ∈ av.blockedDates, b.date = t.day →
          b.allDay = false ∧ b.blockedSlots.contains t.minutesOfDay = false) →
        isAvailableAt av t = scheduleOpenAt av t) ∧
    isAvailableAt monAvailabilityBlocked
      { ms := 0, day := 0, weekday := "monday", minutesOfDay := 615 } = true ∧
    isAvailableAt monAvailabilityBlocked
      { ms := 0, day := 0, weekday := "monday", minutesOfDay := 600 } = false := by
  refine ⟨?_, by decide, by decide⟩
  intro av t h
  have hb : (av.blockedDates.any fun blocked =>
      blocked.date == t.day &&
      (blocked.allDay || blocked.blockedSlots.contains t.minutesOfDay)) = false := by
    rw [List.any_eq_false]
    intro b hbmem
    by_cases hd : b.date = t.day
    · obtain ⟨h1, h2⟩ := h b hbmem hd
      have hmem : t.minutesOfDay ∉ b.blockedSlots := by simpa using h2
      simp [h1, hd, hmem]
    · simp [beq_iff_eq, hd]
  simp only [isAvailableAt]
  rw [hb]
  rfl

/-- C10 witness: the equivalence instantiated at the blocked Monday
template and the instant 10:15 of the blocked day. -/
theorem c10_witness :
    (∀ b ∈ monAvailabilityBlocked.blockedDates, b.date = (0 : Int) →
      b.allDay = false ∧ b.blockedSlots.contains 615 = false) ∧
    isAvailableAt monAvailabilityBlocked
        { ms := 0, day := 0, weekday := "monday", minutesOfDay := 615 } =
      scheduleOpenAt monAvailabilityBlocked
        { ms := 0, day := 0, weekday := "monday", minutesOfDay := 615 } :=
  ⟨by decide, c10.1 monAvailabilityBlocked
    { ms := 0, day := 0, weekday := "monday", minutesOfDay := 615 } (by decide)⟩

end HealthHub
